import Mathlib

/-!
Shallow embedding of `cdlib/readwrite/io.py`: persistence of community
partitions to CSV and JSON.

Modelling conventions:
* Python runtime values are embedded as `PyVal` (the JSON-relevant fragment:
  `None`, booleans, ints, floats as rationals, strings, lists, tuples, dicts
  with string keys).  The `list` / `tuple` distinction is kept because the
  source inspects it (`type(nc.communities[0][0]) is list`).
* Python exceptions that the source can raise on these paths (`KeyError`,
  `IndexError`, `TypeError`) are embedded as `PyErr`; fallible code returns
  `Except PyErr _`.
* The external JSON codec (`json.dumps` / `json.load` / `json.loads`) is a
  collaborator outside this repository.  `json.load(json.dumps(v))` is
  modelled as `jsonNormalize` — the identity up to the tuple-to-array
  coercion the encoder performs — so reads and writes are related at the
  level of parsed JSON documents.
* File I/O is modelled by passing file contents (CSV) or parsed documents
  (JSON) directly; text-mode newline translation is not modelled (all
  contents use the `\n` terminator, as written by the source).
-/

namespace Cdlib

/-- Embedded Python values: the fragment manipulated by `readwrite/io.py`. -/
inductive PyVal where
  | none : PyVal
  | bool : Bool → PyVal
  | int : Int → PyVal
  | float : Rat → PyVal
  | str : String → PyVal
  | list : List PyVal → PyVal
  | tuple : List PyVal → PyVal
  | dict : List (String × PyVal) → PyVal
deriving Repr

/-- Python exceptions raised on the embedded code paths. -/
inductive PyErr where
  | keyError : String → PyErr
  | indexError : PyErr
  | typeError : PyErr
deriving Repr, DecidableEq

/-- First-match lookup in an association list, as a Python dict lookup on a
parsed JSON object (duplicate keys are already resolved by the JSON parser). -/
def lookup : List (String × PyVal) → String → Option PyVal
  | [], _ => Option.none
  | (k', v) :: rest, k => if k' = k then some v else lookup rest k

/-- Python `d[k]` on a dict: `KeyError` when absent, `TypeError` when the
subscripted value is not a dict (string subscripts on lists fail). -/
def getItem (d : PyVal) (k : String) : Except PyErr PyVal :=
  match d with
  | .dict kvs =>
    match lookup kvs k with
    | some v => .ok v
    | Option.none => .error (.keyError k)
  | _ => .error .typeError

/-- Python `k in d` for a dict (key membership). -/
def hasKey (d : PyVal) (k : String) : Bool :=
  match d with
  | .dict kvs => kvs.any (fun kv => kv.1 = k)
  | _ => false

/-- Python iteration `for x in v`: lists and tuples yield their elements,
strings their characters, dicts their keys; scalars raise `TypeError`. -/
def pyIter : PyVal → Except PyErr (List PyVal)
  | .list xs => .ok xs
  | .tuple xs => .ok xs
  | .str s => .ok (s.toList.map (fun c => PyVal.str (String.mk [c])))
  | .dict kvs => .ok (kvs.map (fun kv => PyVal.str kv.1))
  | _ => .error .typeError

/-- Python `tuple(v)`: collect the iteration of `v` into a tuple. -/
def pyTuple (v : PyVal) : Except PyErr PyVal := do
  let xs ← pyIter v
  pure (.tuple xs)

/-- Python `xs[i]` on a list value. -/
def listIndex (xs : List PyVal) (i : Nat) : Except PyErr PyVal :=
  match xs.get? i with
  | some v => .ok v
  | Option.none => .error .indexError

/-- Python `v[i]` for a nonnegative index on a list, tuple or string. -/
def pyIndex (v : PyVal) (i : Nat) : Except PyErr PyVal :=
  match v with
  | .list xs => listIndex xs i
  | .tuple xs => listIndex xs i
  | .str s =>
    match s.toList.get? i with
    | some c => .ok (.str (String.mk [c]))
    | Option.none => .error .indexError
  | _ => .error .typeError

/-- Python `type(v) is list`. -/
def isList : PyVal → Bool
  | .list _ => true
  | _ => false

/-- Error-propagating elementwise map, as a Python list comprehension or
accumulation loop applying a fallible operation left to right. -/
def exceptMap (f : PyVal → Except PyErr PyVal) : List PyVal → Except PyErr (List PyVal)
  | [] => .ok []
  | x :: xs => do
    let y ← f x
    let ys ← exceptMap f xs
    pure (y :: ys)

/-- Clustering variant: the runtime class of the result object
(`NodeClustering`, `FuzzyNodeClustering`, `EdgeClustering`). -/
inductive Variant where
  | node : Variant
  | fuzzyNode : Variant
  | edge : Variant
deriving Repr, DecidableEq

/-- The in-memory partition object.  `method_name`, `method_parameters`,
`overlap` and `node_coverage` hold whatever Python value was supplied (the
source never checks their types).  `allocation_matrix = none` models the
attribute being absent (plain `NodeClustering` objects do not carry it);
`variant` models the object's runtime class. -/
structure Partition where
  communities : List PyVal
  method_name : PyVal
  method_parameters : PyVal
  overlap : PyVal
  node_coverage : PyVal
  allocation_matrix : Option PyVal
  variant : Variant
deriving Repr

/-- Python `str(v)` for the scalar values written to CSV (float rendering
beyond what the claims exercise is not modelled precisely). -/
def pyStr : PyVal → String
  | .none => "None"
  | .bool b => if b then "True" else "False"
  | .int n => toString n
  | .float q => toString q
  | .str s => s
  | .list _ => "<list>"
  | .tuple _ => "<tuple>"
  | .dict _ => "<dict>"

/-- Source `write_community_csv`: one line per community, the `str` of each
node joined by the delimiter, each line terminated by a newline.  The result
is the full file content. -/
def write_community_csv (communities : Partition) (delimiter : String) :
    Except PyErr String := do
  let pieces ← exceptMap
    (fun community => do
      let nodes ← pyIter community
      pure (.str (String.intercalate delimiter (nodes.map pyStr) ++ "\n")))
    communities.communities
  pure (String.join (pieces.map (fun p =>
    match p with
    | .str s => s
    | _ => "")))

/-- Single pass of Python `str.split` over the character list: scan left to
right, emitting the accumulated token whenever the (non-empty) separator is
a prefix of the remaining input.  The fuel argument only certifies
termination; a fuel of at least the input length always suffices. -/
def splitChars (sep : List Char) : Nat → List Char → List Char → List (List Char)
  | _, [], acc => [acc.reverse]
  | 0, cs, acc => [acc.reverse ++ cs]
  | fuel + 1, c :: rest, acc =>
    if sep.isPrefixOf (c :: rest) ∧ sep ≠ [] then
      acc.reverse :: splitChars sep fuel ((c :: rest).drop sep.length) []
    else
      splitChars sep fuel rest (c :: acc)

/-- Python `s.split(sep)` for a non-empty separator: non-overlapping
left-to-right splitting; `"".split(sep) = [""]` and adjacent separators
yield empty tokens. -/
def pySplit (s sep : String) : List String :=
  (splitChars sep.data (s.data.length + 1) s.data []).map (fun cs => String.mk cs)

/-- Iteration of an open text file, line by line: split on the newline
terminator; a final newline does not start an additional empty line.  The
terminator itself is dropped here (the source immediately `rstrip`s it). -/
def pyLines (s : String) : List String :=
  if s = "" then []
  else
    let parts := pySplit s "\n"
    if parts.getLast? = some "" then parts.dropLast else parts

/-- Python whitespace for `str.rstrip()`. -/
def isPySpace (c : Char) : Bool :=
  c = ' ' || c = '\t' || c = '\n' || c = '\r' || c = '\x0b' || c = '\x0c'

/-- Python `s.rstrip()`: drop all trailing whitespace. -/
def pyRstrip (s : String) : String :=
  String.mk ((s.toList.reverse.dropWhile isPySpace).reverse)

/-- Source `read_community_csv`: for every line of the file, `rstrip` it,
split on the delimiter, apply `nodetype` to each token and collect the
tokens as a tuple; wrap the communities in `NodeClustering(communities,
None, "")` (remaining metadata fields take the constructor defaults — per
the spec, "all metadata fields default/absent"). -/
def read_community_csv (content : String) (delimiter : String)
    (nodetype : String → PyVal) : Partition :=
  { communities :=
      (pyLines content).map
        (fun row => PyVal.tuple ((pySplit (pyRstrip row) delimiter).map nodetype))
    method_name := .str ""
    method_parameters := .none
    overlap := .bool false
    node_coverage := .none
    allocation_matrix := Option.none
    variant := .node }

mutual

/-- Effect of `json.load ∘ json.dumps` on a serializable Python value: tuples
are encoded as JSON arrays and decoded back as lists; everything else is
preserved. -/
def jsonNormalize : PyVal → PyVal
  | .none => .none
  | .bool b => .bool b
  | .int n => .int n
  | .float q => .float q
  | .str s => .str s
  | .list xs => .list (jsonNormalizeList xs)
  | .tuple xs => .list (jsonNormalizeList xs)
  | .dict kvs => .dict (jsonNormalizeDict kvs)

/-- Elementwise `jsonNormalize` on an array's elements. -/
def jsonNormalizeList : List PyVal → List PyVal
  | [] => []
  | x :: xs => jsonNormalize x :: jsonNormalizeList xs

/-- Elementwise `jsonNormalize` on an object's values. -/
def jsonNormalizeDict : List (String × PyVal) → List (String × PyVal)
  | [] => []
  | (k, v) :: kvs => (k, jsonNormalize v) :: jsonNormalizeDict kvs

end

/-- Source `write_community_json`: build the partition dict with keys
`communities`, `algorithm`, `params`, `overlap`, `coverage`; append
`allocation_matrix` only when the object carries that attribute (the
`AttributeError` of a plain clustering is swallowed); the written document is
the dict as the JSON codec round-trips it. -/
def write_community_json (communities : Partition) : PyVal :=
  let base : List (String × PyVal) :=
    [("communities", .list communities.communities),
     ("algorithm", communities.method_name),
     ("params", communities.method_parameters),
     ("overlap", communities.overlap),
     ("coverage", communities.node_coverage)]
  let withAlloc :=
    match communities.allocation_matrix with
    | some m => base ++ [("allocation_matrix", m)]
    | Option.none => base
  jsonNormalize (.dict withAlloc)

/-- The inner edge-conversion loop of the JSON readers: for each community
`c`, `cm = [tuple(e) for e in c]` collected as `tuple(cm)`. -/
def edgeConvert : List PyVal → Except PyErr (List PyVal) :=
  exceptMap (fun c => do
    let es ← pyIter c
    let cm ← exceptMap pyTuple es
    pure (.tuple cm))

/-- Source `read_community_json` applied to the parsed JSON document:
convert each entry of `coms['communities']` to a tuple; store `algorithm`,
`params`, `overlap`, then `coverage`; if key `allocation_matrix` is present,
reclassify as `FuzzyNodeClustering` and attach the matrix; if the first
element of the first community is a list, convert every element of every
community to a tuple and reclassify as `EdgeClustering`. -/
def read_community_json (doc : PyVal) : Except PyErr Partition := do
  let comsRaw ← getItem doc "communities"
  let entries ← pyIter comsRaw
  let communities ← exceptMap pyTuple entries
  let algorithm ← getItem doc "algorithm"
  let params ← getItem doc "params"
  let overlap ← getItem doc "overlap"
  let coverage ← getItem doc "coverage"
  let nc : Partition :=
    { communities := communities
      method_name := algorithm
      method_parameters := params
      overlap := overlap
      node_coverage := coverage
      allocation_matrix := Option.none
      variant := .node }
  let nc ←
    if hasKey doc "allocation_matrix" then do
      let m ← getItem doc "allocation_matrix"
      pure { nc with variant := .fuzzyNode, allocation_matrix := some m }
    else
      pure nc
  let c0 ← listIndex nc.communities 0
  let e0 ← pyIndex c0 0
  if isList e0 then do
    let cms ← edgeConvert nc.communities
    pure { nc with communities := cms, variant := .edge }
  else
    pure nc

/-- Source `read_community_from_json_string` applied to the parsed JSON
document: its body is the same as `read_community_json` after parsing
(`json.loads` in place of `json.load`). -/
def read_community_from_json_string (doc : PyVal) : Except PyErr Partition := do
  let comsRaw ← getItem doc "communities"
  let entries ← pyIter comsRaw
  let communities ← exceptMap pyTuple entries
  let algorithm ← getItem doc "algorithm"
  let params ← getItem doc "params"
  let overlap ← getItem doc "overlap"
  let coverage ← getItem doc "coverage"
  let nc : Partition :=
    { communities := communities
      method_name := algorithm
      method_parameters := params
      overlap := overlap
      node_coverage := coverage
      allocation_matrix := Option.none
      variant := .node }
  let nc ←
    if hasKey doc "allocation_matrix" then do
      let m ← getItem doc "allocation_matrix"
      pure { nc with variant := .fuzzyNode, allocation_matrix := some m }
    else
      pure nc
  let c0 ← listIndex nc.communities 0
  let e0 ← pyIndex c0 0
  if isList e0 then do
    let cms ← edgeConvert nc.communities
    pure { nc with communities := cms, variant := .edge }
  else
    pure nc

/-- Required keys of the JSON document, in the order the source accesses
them. -/
def requiredKeys : List String :=
  ["communities", "algorithm", "params", "overlap", "coverage"]

/-! Helper definitions and lemmas about the embedded primitives. -/

/-- `tuple(v)` restricted to values on which it cannot fail; on a list it
re-wraps the same elements as a tuple (identity elsewhere).  Used to state
what the readers do to community entries. -/
def tupOf : PyVal → PyVal
  | .list xs => .tuple xs
  | v => v

theorem exceptMap_ok {f : PyVal → Except PyErr PyVal} {g : PyVal → PyVal} :
    ∀ xs : List PyVal, (∀ x ∈ xs, f x = .ok (g x)) →
      exceptMap f xs = .ok (xs.map g)
  | [], _ => rfl
  | x :: xs, h => by
    simp [exceptMap, h x (by simp),
      exceptMap_ok xs (fun y hy => h y (by simp [hy])),
      Bind.bind, Except.bind, pure, Except.pure]

theorem pyTuple_list (xs : List PyVal) :
    pyTuple (.list xs) = .ok (.tuple xs) := rfl

theorem exceptMap_pyTuple_lists (ls : List (List PyVal)) :
    exceptMap pyTuple (ls.map PyVal.list) = .ok (ls.map PyVal.tuple) := by
  have h := exceptMap_ok (f := pyTuple) (g := tupOf) (ls.map PyVal.list)
    (by rintro x hx
        simp only [List.mem_map] at hx
        obtain ⟨l, _, rfl⟩ := hx
        rfl)
  rw [h, List.map_map]
  rfl

theorem edgeConvert_tuples_of_lists :
    ∀ css : List (List (List PyVal)),
      edgeConvert (css.map (fun c => PyVal.tuple (c.map PyVal.list))) =
        .ok (css.map (fun c => PyVal.tuple (c.map PyVal.tuple)))
  | [] => rfl
  | c :: css => by
    have ih := edgeConvert_tuples_of_lists css
    simp only [List.map_cons, edgeConvert, exceptMap] at ih ⊢
    simp only [pyIter, exceptMap_pyTuple_lists c, Bind.bind, Except.bind, pure,
      Except.pure] at ih ⊢
    rw [ih]

theorem mem_of_lookup : ∀ {kvs : List (String × PyVal)} {k : String} {v : PyVal},
    lookup kvs k = some v → (k, v) ∈ kvs := by
  intro kvs
  induction kvs with
  | nil => intro k v h; simp [lookup] at h
  | cons kv rest ih =>
    intro k v h
    obtain ⟨a, b⟩ := kv
    simp only [lookup] at h
    by_cases hk : a = k
    · rw [if_pos hk] at h
      injection h with h
      subst hk; subst h
      exact List.mem_cons_self _ _
    · rw [if_neg hk] at h
      exact List.mem_cons_of_mem _ (ih h)

theorem hasKey_of_lookup {kvs : List (String × PyVal)} {k : String} {v : PyVal}
    (h : lookup kvs k = some v) : hasKey (.dict kvs) k = true := by
  have hm := mem_of_lookup h
  simp only [hasKey, List.any_eq_true]
  exact ⟨(k, v), hm, by simp⟩

theorem lookup_of_hasKey : ∀ (kvs : List (String × PyVal)) (k : String),
    hasKey (.dict kvs) k = true → ∃ v, lookup kvs k = some v
  | [], k, h => by simp [hasKey] at h
  | kv :: rest, k, h => by
    by_cases hk : kv.1 = k
    · exact ⟨kv.2, by simp [lookup, hk]⟩
    · obtain ⟨v, hv⟩ := lookup_of_hasKey rest k (by simpa [hasKey, hk] using h)
      exact ⟨v, by simp [lookup, hk, hv]⟩

/-! Concrete inputs used by the individual claims. -/

/-- The plain partition of the JSON round-trip property: communities
`[[1,2],[3]]`, method `louvain`, empty parameters, no overlap, coverage
`0.9`, no allocation matrix. -/
def partJsonRoundtrip : Partition :=
  { communities := [.list [.int 1, .int 2], .list [.int 3]]
    method_name := .str "louvain"
    method_parameters := .dict []
    overlap := .bool false
    node_coverage := .float (9 / 10)
    allocation_matrix := Option.none
    variant := .node }

/-- A JSON document with all required keys whose `communities` is the empty
array. -/
def docEmptyCommunities : PyVal :=
  .dict [("communities", .list []),
         ("algorithm", .str "louvain"),
         ("params", .dict []),
         ("overlap", .bool false),
         ("coverage", .float (9 / 10))]

/-- The partition of the CSV round-trip property: communities
`[("1","2"),("3",)]`. -/
def partCsvRoundtrip : Partition :=
  { communities := [.tuple [.str "1", .str "2"], .tuple [.str "3"]]
    method_name := .str ""
    method_parameters := .none
    overlap := .bool false
    node_coverage := .none
    allocation_matrix := Option.none
    variant := .node }

/-- A JSON document with the required keys whose single community contains
one 3-element array. -/
def docEdgeTriple : PyVal :=
  .dict [("communities", .list [.list [.list [.int 1, .int 2, .int 3]]]),
         ("algorithm", .str "eclus"),
         ("params", .dict []),
         ("overlap", .bool false),
         ("coverage", .int 1)]

/-- A JSON document that carries `allocation_matrix` and is edge structured
(first community's first element is an array). -/
def docFuzzyEdge : PyVal :=
  .dict [("communities", .list [.list [.list [.int 1, .int 2], .list [.int 2, .int 3]]]),
         ("algorithm", .str "agdl"),
         ("params", .dict []),
         ("overlap", .bool false),
         ("coverage", .int 1),
         ("allocation_matrix", .dict [("1", .list [.float (1 / 2)])])]

/-- A JSON document carrying `allocation_matrix` whose communities are edge
structured, used against the unconditional fuzzy-detection claim. -/
def docAllocEdge : PyVal :=
  .dict [("allocation_matrix", .dict [("7", .list [.float (1 / 4)])]),
         ("communities", .list [.list [.list [.int 7, .int 8]]]),
         ("algorithm", .str "frc"),
         ("params", .dict []),
         ("overlap", .bool true),
         ("coverage", .float (1 / 2))]

/-- Predicate: the value is a 2-element tuple. -/
def isPairTuple : PyVal → Bool
  | .tuple [_, _] => true
  | _ => false

/-- Predicate: every element of every community of the partition is a
2-element tuple. -/
def allElemsPairs (p : Partition) : Bool :=
  p.communities.all (fun c =>
    match c with
    | .tuple es => es.all isPairTuple
    | _ => false)

/-! Claim theorems. -/

/-- Claim C1: writing the partition with `communities=[[1,2],[3]]`,
`method_name="louvain"`, `method_parameters={}`, `overlap=False`,
`node_coverage=0.9` with `write_community_json` and reading the document
back with `read_community_json` yields a plain-variant result whose
communities are the original ones as tuples and whose `method_name`,
`overlap` and `node_coverage` equal the originals. -/
theorem json_roundtrip_plain :
    read_community_json (write_community_json partJsonRoundtrip) =
      .ok { communities := [.tuple [.int 1, .int 2], .tuple [.int 3]]
            method_name := .str "louvain"
            method_parameters := .dict []
            overlap := .bool false
            node_coverage := .float (9 / 10)
            allocation_matrix := Option.none
            variant := .node } := rfl

/-- Claim C2: on a document whose `communities` is the empty array (all
required keys present), both JSON readers raise `IndexError` — an
out-of-bounds indexing fault from `nc.communities[0]` — rather than the
schema error the specification requires. -/
theorem json_empty_communities_index_fault :
    read_community_json docEmptyCommunities = .error .indexError ∧
    read_community_from_json_string docEmptyCommunities = .error .indexError :=
  ⟨rfl, rfl⟩

/-- Claim C3: writing the partition with communities `[("1","2"),("3",)]`
with `write_community_csv` and delimiter `","` produces the file content
`"1,2\n3\n"`, and reading that content back with `read_community_csv` and
string node type yields communities `[("1","2"),("3",)]` again. -/
theorem csv_roundtrip_str :
    write_community_csv partCsvRoundtrip "," = .ok "1,2\n3\n" ∧
    (read_community_csv "1,2\n3\n" "," PyVal.str).communities =
      [.tuple [.str "1", .str "2"], .tuple [.str "3"]] :=
  ⟨rfl, rfl⟩

/-- Claim C8 counterexample: on the file content `"1 \n\n2\n"` there are
exactly two non-empty lines, yet `read_community_csv` produces three
communities (the empty middle line contributes the community `("",)`), so
the reader does not produce one community per non-empty line. -/
theorem csv_per_line_counterexample :
    ((pyLines "1 \n\n2\n").filter (fun l => l ≠ "")).length = 2 ∧
    (read_community_csv "1 \n\n2\n" "," PyVal.str).communities =
      [.tuple [.str "1"], .tuple [.str ""], .tuple [.str "2"]] ∧
    (read_community_csv "1 \n\n2\n" "," PyVal.str).communities.length ≠ 2 :=
  ⟨rfl, rfl, by decide⟩

/-- Claim C8 (amended): `read_community_csv` produces exactly one community
per line — empty lines included — in file order; the community of line `i`
is the tuple obtained by stripping all trailing whitespace from the line
(`rstrip`, not only the newline), splitting on the delimiter, and applying
the node-type conversion to every token (an empty line therefore yields the
one-element community containing the conversion of `""`). -/
theorem csv_one_community_per_line (content delimiter : String)
    (nodetype : String → PyVal) (i : Nat) :
    (read_community_csv content delimiter nodetype).communities[i]? =
      ((pyLines content)[i]?).map
        (fun row => PyVal.tuple ((pySplit (pyRstrip row) delimiter).map nodetype)) := by
  simp [read_community_csv, List.getElem?_map]

/-- Claim C10: on a document with the required keys whose first community is
non-empty with a scalar (non-array) first element and no `allocation_matrix`
key, `read_community_json` converts only the top-level community entries to
tuples and returns the plain node-clustering variant; array elements inside
later communities are left as arrays. -/
theorem json_plain_keeps_nested (kvs : List (String × PyVal))
    (e0 : PyVal) (c0tl : List PyVal) (crest : List (List PyVal))
    (a pr ov cov : PyVal)
    (hcoms : lookup kvs "communities" =
      some (.list (PyVal.list (e0 :: c0tl) :: crest.map PyVal.list)))
    (he0 : isList e0 = false)
    (halg : lookup kvs "algorithm" = some a)
    (hpar : lookup kvs "params" = some pr)
    (hov : lookup kvs "overlap" = some ov)
    (hcov : lookup kvs "coverage" = some cov)
    (hno : hasKey (PyVal.dict kvs) "allocation_matrix" = false) :
    read_community_json (PyVal.dict kvs) =
      .ok { communities := PyVal.tuple (e0 :: c0tl) :: crest.map PyVal.tuple
            method_name := a
            method_parameters := pr
            overlap := ov
            node_coverage := cov
            allocation_matrix := Option.none
            variant := .node } := by
  have hmap : exceptMap pyTuple (PyVal.list (e0 :: c0tl) :: crest.map PyVal.list) =
      .ok (PyVal.tuple (e0 :: c0tl) :: crest.map PyVal.tuple) := by
    simp [exceptMap, pyTuple, pyIter, exceptMap_pyTuple_lists crest,
      Bind.bind, Except.bind, pure, Except.pure]
  simp [read_community_json, getItem, hcoms, halg, hpar, hov, hcov, hno, hmap,
    Bind.bind, Except.bind, pure, Except.pure, listIndex, pyIndex, he0]
  simp [pyIter, hmap, listIndex, pyIndex, he0]

/-- Claim C10 witness: a concrete document whose second community contains
the array `[2,3]`; the read keeps that array as an array inside a top-level
tuple and stays in the plain variant. -/
theorem json_plain_keeps_nested_witness :
    read_community_json
        (PyVal.dict [("communities", .list [.list [.int 1], .list [.list [.int 2, .int 3], .int 4]]),
                     ("algorithm", .str "louvain"),
                     ("params", .dict []),
                     ("overlap", .bool false),
                     ("coverage", .int 1)]) =
      .ok { communities := [.tuple [.int 1], .tuple [.list [.int 2, .int 3], .int 4]]
            method_name := .str "louvain"
            method_parameters := .dict []
            overlap := .bool false
            node_coverage := .int 1
            allocation_matrix := Option.none
            variant := .node } :=
  json_plain_keeps_nested _ (.int 1) [] [[.list [.int 2, .int 3], .int 4]]
    (.str "louvain") (.dict []) (.bool false) (.int 1)
    rfl rfl rfl rfl rfl rfl rfl

/-- Claim C6 counterexample: `docAllocEdge` contains `allocation_matrix`,
has the required keys and non-empty communities, yet the result's variant is
`EdgeClustering`, not `FuzzyNodeClustering` — the edge reclassification
overwrites the fuzzy marking, so the claim fails as stated. -/
theorem fuzzy_flag_counterexample :
    (read_community_json docAllocEdge).map Partition.variant = .ok .edge ∧
    Variant.edge ≠ Variant.fuzzyNode :=
  ⟨rfl, by decide⟩

/-- Claim C6 (amended): on a document with the required keys that contains
`allocation_matrix`, whose first community is non-empty and whose first
community's first element is not an array, the read succeeds with the fuzzy
variant and the matrix attached — regardless of the order of the document's
fields. -/
theorem json_fuzzy_detection_amended (kvs : List (String × PyVal))
    (e0 : PyVal) (c0tl : List PyVal) (crest : List (List PyVal))
    (a pr ov cov m : PyVal)
    (hcoms : lookup kvs "communities" =
      some (.list (PyVal.list (e0 :: c0tl) :: crest.map PyVal.list)))
    (he0 : isList e0 = false)
    (halg : lookup kvs "algorithm" = some a)
    (hpar : lookup kvs "params" = some pr)
    (hov : lookup kvs "overlap" = some ov)
    (hcov : lookup kvs "coverage" = some cov)
    (halloc : lookup kvs "allocation_matrix" = some m) :
    read_community_json (PyVal.dict kvs) =
      .ok { communities := PyVal.tuple (e0 :: c0tl) :: crest.map PyVal.tuple
            method_name := a
            method_parameters := pr
            overlap := ov
            node_coverage := cov
            allocation_matrix := some m
            variant := .fuzzyNode } := by
  have hkey := hasKey_of_lookup halloc
  have hmap : exceptMap pyTuple (PyVal.list (e0 :: c0tl) :: crest.map PyVal.list) =
      .ok (PyVal.tuple (e0 :: c0tl) :: crest.map PyVal.tuple) := by
    simp [exceptMap, pyTuple, pyIter, exceptMap_pyTuple_lists crest,
      Bind.bind, Except.bind, pure, Except.pure]
  simp [read_community_json, getItem, hcoms, halg, hpar, hov, hcov, hkey,
    halloc, hmap, Bind.bind, Except.bind, pure, Except.pure, listIndex,
    pyIndex, he0]
  simp [pyIter, hmap, listIndex, pyIndex, he0]

/-- Claim C6 witness: a concrete fuzzy, non-edge document with the
`allocation_matrix` field listed first is read as the fuzzy variant with the
matrix attached. -/
theorem json_fuzzy_detection_amended_witness :
    read_community_json
        (PyVal.dict [("allocation_matrix", .dict [("1", .list [.float (1 / 2)])]),
                     ("communities", .list [.list [.int 1, .int 2]]),
                     ("algorithm", .str "fcm"),
                     ("params", .dict []),
                     ("overlap", .bool false),
                     ("coverage", .int 1)]) =
      .ok { communities := [.tuple [.int 1, .int 2]]
            method_name := .str "fcm"
            method_parameters := .dict []
            overlap := .bool false
            node_coverage := .int 1
            allocation_matrix := some (.dict [("1", .list [.float (1 / 2)])])
            variant := .fuzzyNode } :=
  json_fuzzy_detection_amended _ (.int 1) [.int 2] []
    (.str "fcm") (.dict []) (.bool false) (.int 1)
    (.dict [("1", .list [.float (1 / 2)])])
    rfl rfl rfl rfl rfl rfl rfl

/-- Claim C4 counterexample: on `docEdgeTriple` (first community's first
element is an array) the result is the edge variant, but its single element
is the 3-element tuple `(1,2,3)`, so not every element is a 2-element
tuple. -/
theorem edge_pairs_counterexample :
    (read_community_json docEdgeTriple).map Partition.variant = .ok .edge ∧
    (read_community_json docEdgeTriple).map allElemsPairs = .ok false :=
  ⟨rfl, rfl⟩

/-- Claim C4 (amended): on a document with the required keys whose
communities are arrays of arrays and whose first community is non-empty, the
read succeeds with the `EdgeClustering` variant, and every element `e` of
every community becomes `tuple(e)` — a tuple of the same arity as `e`
(2-element exactly when the arrays are pairs). -/
theorem json_edge_detection_amended (kvs : List (String × PyVal))
    (e0 : List PyVal) (c0tl : List (List PyVal)) (crest : List (List (List PyVal)))
    (a pr ov cov : PyVal)
    (hcoms : lookup kvs "communities" =
      some (.list (((e0 :: c0tl) :: crest).map (fun c => PyVal.list (c.map PyVal.list)))))
    (halg : lookup kvs "algorithm" = some a)
    (hpar : lookup kvs "params" = some pr)
    (hov : lookup kvs "overlap" = some ov)
    (hcov : lookup kvs "coverage" = some cov) :
    ∃ p, read_community_json (PyVal.dict kvs) = .ok p ∧
      p.variant = .edge ∧
      p.communities =
        ((e0 :: c0tl) :: crest).map (fun c => PyVal.tuple (c.map PyVal.tuple)) := by
  have hmap : exceptMap pyTuple
      (((e0 :: c0tl) :: crest).map (fun c => PyVal.list (c.map PyVal.list))) =
      .ok (((e0 :: c0tl) :: crest).map (fun c => PyVal.tuple (c.map PyVal.list))) := by
    have h := exceptMap_pyTuple_lists (((e0 :: c0tl) :: crest).map (fun c => c.map PyVal.list))
    simpa [List.map_map] using h
  have hedge := edgeConvert_tuples_of_lists ((e0 :: c0tl) :: crest)
  simp only [List.map_cons] at hmap hedge
  by_cases hkey : hasKey (PyVal.dict kvs) "allocation_matrix" = true
  · obtain ⟨m, hm⟩ := lookup_of_hasKey kvs _ hkey
    refine ⟨{ communities := ((e0 :: c0tl) :: crest).map (fun c => PyVal.tuple (c.map PyVal.tuple))
              method_name := a
              method_parameters := pr
              overlap := ov
              node_coverage := cov
              allocation_matrix := some m
              variant := .edge }, ?_, rfl, rfl⟩
    simp [read_community_json, getItem, hcoms, halg, hpar, hov, hcov, hkey, hm,
      hmap, Bind.bind, Except.bind, pure, Except.pure, listIndex, pyIndex]
    simp [pyIter, hmap, listIndex, pyIndex, isList, hedge]
  · rw [Bool.not_eq_true] at hkey
    refine ⟨{ communities := ((e0 :: c0tl) :: crest).map (fun c => PyVal.tuple (c.map PyVal.tuple))
              method_name := a
              method_parameters := pr
              overlap := ov
              node_coverage := cov
              allocation_matrix := Option.none
              variant := .edge }, ?_, rfl, rfl⟩
    simp [read_community_json, getItem, hcoms, halg, hpar, hov, hcov, hkey,
      hmap, Bind.bind, Except.bind, pure, Except.pure, listIndex, pyIndex]
    simp [pyIter, hmap, listIndex, pyIndex, isList, hedge]

/-- Claim C4 witness: a concrete edge-structured document with pair edges is
read as the edge variant with every element a tuple. -/
theorem json_edge_detection_amended_witness :
    ∃ p, read_community_json
        (PyVal.dict [("communities", .list [.list [.list [.int 1, .int 2], .list [.int 2, .int 3]]]),
                     ("algorithm", .str "hlc"),
                     ("params", .dict []),
                     ("overlap", .bool false),
                     ("coverage", .int 1)]) = .ok p ∧
      p.variant = .edge ∧
      p.communities = [.tuple [.tuple [.int 1, .int 2], .tuple [.int 2, .int 3]]] :=
  json_edge_detection_amended _ [.int 1, .int 2] [[.int 2, .int 3]] []
    (.str "hlc") (.dict []) (.bool false) (.int 1)
    rfl rfl rfl rfl rfl

/-- Claim C5 counterexample: on `docFuzzyEdge` (both `allocation_matrix` and
edge structure) the result's variant is `EdgeClustering` only — the fuzzy
class marking does not survive, so the result does not carry both
markings. -/
theorem fuzzy_edge_counterexample :
    (read_community_json docFuzzyEdge).map Partition.variant = .ok .edge ∧
    Variant.edge ≠ Variant.fuzzyNode :=
  ⟨rfl, by decide⟩

/-- Claim C5 (amended): on a document with the required keys containing
`allocation_matrix` whose communities are non-empty arrays of arrays, the
read succeeds; the result is the `EdgeClustering` variant (the transient
fuzzy reclassification is overwritten), while the allocation matrix remains
attached as an attribute. -/
theorem json_fuzzy_edge_amended (kvs : List (String × PyVal))
    (e0 : List PyVal) (c0tl : List (List PyVal)) (crest : List (List (List PyVal)))
    (a pr ov cov m : PyVal)
    (hcoms : lookup kvs "communities" =
      some (.list (((e0 :: c0tl) :: crest).map (fun c => PyVal.list (c.map PyVal.list)))))
    (halg : lookup kvs "algorithm" = some a)
    (hpar : lookup kvs "params" = some pr)
    (hov : lookup kvs "overlap" = some ov)
    (hcov : lookup kvs "coverage" = some cov)
    (halloc : lookup kvs "allocation_matrix" = some m) :
    read_community_json (PyVal.dict kvs) =
      .ok { communities := ((e0 :: c0tl) :: crest).map (fun c => PyVal.tuple (c.map PyVal.tuple))
            method_name := a
            method_parameters := pr
            overlap := ov
            node_coverage := cov
            allocation_matrix := some m
            variant := .edge } := by
  have hkey := hasKey_of_lookup halloc
  have hmap : exceptMap pyTuple
      (((e0 :: c0tl) :: crest).map (fun c => PyVal.list (c.map PyVal.list))) =
      .ok (((e0 :: c0tl) :: crest).map (fun c => PyVal.tuple (c.map PyVal.list))) := by
    have h := exceptMap_pyTuple_lists (((e0 :: c0tl) :: crest).map (fun c => c.map PyVal.list))
    simpa [List.map_map] using h
  have hedge := edgeConvert_tuples_of_lists ((e0 :: c0tl) :: crest)
  simp only [List.map_cons] at hmap hedge
  simp [read_community_json, getItem, hcoms, halg, hpar, hov, hcov, hkey,
    halloc, hmap, Bind.bind, Except.bind, pure, Except.pure, listIndex, pyIndex]
  simp [pyIter, hmap, listIndex, pyIndex, isList, hedge]

/-- Claim C5 witness: a concrete document with both `allocation_matrix` and
edge structure is read as the edge variant with the matrix still
attached. -/
theorem json_fuzzy_edge_amended_witness :
    read_community_json
        (PyVal.dict [("communities", .list [.list [.list [.int 4, .int 5]]]),
                     ("algorithm", .str "sbm"),
                     ("params", .dict []),
                     ("overlap", .bool true),
                     ("coverage", .int 1),
                     ("allocation_matrix", .dict [("4", .list [.float 1])])]) =
      .ok { communities := [.tuple [.tuple [.int 4, .int 5]]]
            method_name := .str "sbm"
            method_parameters := .dict []
            overlap := .bool true
            node_coverage := .int 1
            allocation_matrix := some (.dict [("4", .list [.float 1])])
            variant := .edge } :=
  json_fuzzy_edge_amended _ [.int 4, .int 5] [] []
    (.str "sbm") (.dict []) (.bool true) (.int 1)
    (.dict [("4", .list [.float 1])])
    rfl rfl rfl rfl rfl rfl

/-- Claim C9: on any parsed JSON document, `read_community_json` and
`read_community_from_json_string` return identical results — the same
partition on success and the same error on failure (the two sources differ
only in obtaining the document via `json.load` versus `json.loads`). -/
theorem json_read_eq_read_from_string (doc : PyVal) :
    read_community_json doc = read_community_from_json_string doc := rfl

theorem read_from_string_eq_read (doc : PyVal) :
    read_community_from_json_string doc = read_community_json doc := rfl

theorem read_isOk_requires (kvs : List (String × PyVal))
    (h : (read_community_json (PyVal.dict kvs)).isOk = true) :
    (lookup kvs "communities").isSome = true ∧
    (lookup kvs "algorithm").isSome = true ∧
    (lookup kvs "params").isSome = true ∧
    (lookup kvs "overlap").isSome = true ∧
    (lookup kvs "coverage").isSome = true := by
  simp only [read_community_json, getItem, Bind.bind, Except.bind] at h
  cases h1 : lookup kvs "communities" with
  | none => rw [h1] at h; simp [Except.isOk, Except.toBool] at h
  | some cr =>
  rw [h1] at h
  simp only [] at h
  cases h2 : pyIter cr with
  | error e => rw [h2] at h; simp [Except.isOk, Except.toBool] at h
  | ok entries =>
  rw [h2] at h
  simp only [] at h
  cases h3 : exceptMap pyTuple entries with
  | error e => rw [h3] at h; simp [Except.isOk, Except.toBool] at h
  | ok comm =>
  rw [h3] at h
  simp only [] at h
  cases h4 : lookup kvs "algorithm" with
  | none => rw [h4] at h; simp [Except.isOk, Except.toBool] at h
  | some av =>
  rw [h4] at h
  simp only [] at h
  cases h5 : lookup kvs "params" with
  | none => rw [h5] at h; simp [Except.isOk, Except.toBool] at h
  | some pv =>
  rw [h5] at h
  simp only [] at h
  cases h6 : lookup kvs "overlap" with
  | none => rw [h6] at h; simp [Except.isOk, Except.toBool] at h
  | some ovv =>
  rw [h6] at h
  simp only [] at h
  cases h7 : lookup kvs "coverage" with
  | none => rw [h7] at h; simp [Except.isOk, Except.toBool] at h
  | some cvv =>
  simp [h1, h4, h5, h6, h7]

/-- Claim C7: a JSON document lacking one of the required keys
(`communities`, `algorithm`, `params`, `overlap`, `coverage`) makes both
JSON readers fail with a detectable error (the `KeyError` of the absent key,
or an earlier failure of the communities conversion) rather than silently
substituting a default. -/
theorem missing_required_key_fails (kvs : List (String × PyVal)) (k : String)
    (hk : k ∈ requiredKeys) (habs : lookup kvs k = Option.none) :
    ∃ e, read_community_json (PyVal.dict kvs) = .error e ∧
         read_community_from_json_string (PyVal.dict kvs) = .error e := by
  cases hr : read_community_json (PyVal.dict kvs) with
  | error e => exact ⟨e, rfl, by rw [read_from_string_eq_read]; exact hr⟩
  | ok p =>
    exfalso
    have hall := read_isOk_requires kvs (by rw [hr]; rfl)
    simp only [requiredKeys, List.mem_cons, List.not_mem_nil, or_false] at hk
    rcases hk with rfl | rfl | rfl | rfl | rfl <;> simp [habs] at hall

/-- Claim C7 witness: a concrete document lacking `algorithm` makes both
readers fail. -/
theorem missing_required_key_fails_witness :
    ∃ e, read_community_json
        (PyVal.dict [("communities", .list [.list [.int 1, .int 2]]),
                     ("params", .dict []),
                     ("overlap", .bool false),
                     ("coverage", .int 1)]) = .error e ∧
      read_community_from_json_string
        (PyVal.dict [("communities", .list [.list [.int 1, .int 2]]),
                     ("params", .dict []),
                     ("overlap", .bool false),
                     ("coverage", .int 1)]) = .error e :=
  missing_required_key_fails _ "algorithm" (by simp [requiredKeys]) rfl

end Cdlib
